import Mathlib

/-!
Verification of the location-images aggregation pipeline.

The definitions below are a shallow embedding of the pipeline code:

* the record model mirrors the ImageResult interface (src/app/page.tsx,
  src/app/api/search/route.ts line 1170);
* Deduplicate mirrors the uniqueImages filter of the GET handler
  (src/app/api/search/route.ts lines 1140 to 1147), with the JS Set of
  seen keys made an explicit list of strings;
* Mix mirrors the shuffle (route.ts line 1149): the JS sort driven by a
  random comparator is modelled as a stable sort with an arbitrary
  boolean comparator, which ranges over everything the random one can do;
* GET mirrors the whole handler (route.ts lines 1089 to 1160), with the
  per-source scraper functions abstracted into one fetch parameter:
  every scraper wraps its body in try/catch and resolves with a list
  (empty on any internal failure), so each adapter is a total function
  into lists and the Promise.all never rejects, making the 500 branch
  of the handler unreachable;
* Bucket mirrors the periods computation of the Timeline component
  (src/components/Timeline.tsx lines 37 to 105), with the current year
  an explicit parameter.

JS number fields holding years and sizes are modelled as Int; optional
fields as Option.  JS falsiness of the optional year field (used by the
Timeline tests) is zero-or-absent; JS falsiness of a nullable string
(used by the handler on its query parameters) is null-or-empty.
-/

/-- The normalized image record (interface ImageResult of page.tsx). -/
structure ImageResult where
  id : String
  url : String
  thumbnail : String
  title : String
  source : String
  sourceUrl : String
  width : Option Int := none
  height : Option Int := none
  year : Option Int := none
  date : Option String := none
  isHistorical : Option Bool := none
deriving DecidableEq, Repr

/-- Canonical deduplication key: img.url.split(\x27?\x27)[0] -- the url up to
the first question mark (the whole url when it has none). -/
def canonKey (s : String) : String :=
  String.mk (s.data.takeWhile (fun c => c != '?'))

/-- The uniqueImages filter of route.ts lines 1140 to 1147: one pass in
input order, keeping a record iff its canonical key was not seen before,
and recording the key.  The JS Set becomes a list of seen keys. -/
def dedupAux : List ImageResult → List String → List ImageResult
  | [], _ => []
  | img :: rest, seen =>
    if canonKey img.url ∈ seen then
      dedupAux rest seen
    else
      img :: dedupAux rest (canonKey img.url :: seen)

/-- Deduplicate: the uniqueImages filter run with an empty seen set. -/
def Deduplicate (l : List ImageResult) : List ImageResult :=
  dedupAux l []

/-- The shuffle of route.ts line 1149: uniqueImages.sort with a random
comparator.  A JS comparison sort always returns a rearrangement of its
input, so the shuffle is modelled as a stable sort under an arbitrary
comparator rand. -/
def Mix (rand : ImageResult → ImageResult → Bool) (l : List ImageResult) :
    List ImageResult :=
  l.mergeSort rand

/-- One entry of the Timeline periodDefs table (label, start, end). -/
structure PeriodDef where
  label : String
  start : Int
  stop : Int
deriving DecidableEq, Repr

/-- The fixed period table of Timeline.tsx lines 40 to 57; the end of
the 2020s period is the current year. -/
def periodDefs (now : Int) : List PeriodDef :=
  [⟨"2020s", 2020, now⟩,
   ⟨"2010s", 2010, 2019⟩,
   ⟨"2000s", 2000, 2009⟩,
   ⟨"1990s", 1990, 1999⟩,
   ⟨"1980s", 1980, 1989⟩,
   ⟨"1970s", 1970, 1979⟩,
   ⟨"1960s", 1960, 1969⟩,
   ⟨"1950s", 1950, 1959⟩,
   ⟨"1940s", 1940, 1949⟩,
   ⟨"1930s", 1930, 1939⟩,
   ⟨"1920s", 1920, 1929⟩,
   ⟨"1910s", 1910, 1919⟩,
   ⟨"1900s", 1900, 1909⟩,
   ⟨"1800s", 1800, 1899⟩,
   ⟨"Earlier", 0, 1799⟩]

/-- A timeline bucket (interface TimelinePeriod of Timeline.tsx). -/
structure TimelinePeriod where
  label : String
  startYear : Int
  endYear : Int
  images : List ImageResult
deriving DecidableEq, Repr

/-- JS falsiness of the optional numeric year field: absent or zero. -/
def yearFalsy : Option Int → Bool
  | none => true
  | some v => v == 0

/-- The comparator of the year sort at Timeline.tsx lines 63 to 68,
returning an integer like the JS comparator. -/
def yearCmp (a b : ImageResult) : Int :=
  if yearFalsy a.year && yearFalsy b.year then 0
  else if yearFalsy a.year then 1
  else if yearFalsy b.year then -1
  else b.year.getD 0 - a.year.getD 0

/-- sortedImages of Timeline.tsx line 63: stable sort by the year
comparator (keep a before b when the comparator is nonpositive). -/
def sortImagesByYear (images : List ImageResult) : List ImageResult :=
  images.mergeSort (fun a b => yearCmp a b ≤ 0)

/-- The body of the grouping loop once a period def was found: update
the first bucket already carrying the label, appending the image at the
end of its images, or append a fresh bucket at the end of the list
(result.find / result.push of Timeline.tsx lines 79 to 90). -/
def pushImage (d : PeriodDef) (img : ImageResult) :
    List TimelinePeriod → List TimelinePeriod
  | [] => [⟨d.label, d.start, d.stop, [img]⟩]
  | p :: ps =>
    if p.label == d.label then
      { p with images := p.images ++ [img] } :: ps
    else
      p :: pushImage d img ps

/-- The search of the first period whose range contains the year of a
record (periodDefs.find of Timeline.tsx line 78). -/
def findPeriod (now : Int) (img : ImageResult) : Option PeriodDef :=
  (periodDefs now).find?
    (fun d => d.start ≤ img.year.getD 0 && img.year.getD 0 ≤ d.stop)

/-- One iteration of the grouping loop of Timeline.tsx lines 71 to 91:
a falsy year goes to the undated list, otherwise the image lands in the
first period of the table whose range contains the year, and is dropped
when no range does. -/
def bucketStep (now : Int) (acc : List TimelinePeriod × List ImageResult)
    (img : ImageResult) : List TimelinePeriod × List ImageResult :=
  if yearFalsy img.year then
    (acc.1, acc.2 ++ [img])
  else
    match findPeriod now img with
    | some d => (pushImage d img acc.1, acc.2)
    | none => acc

/-- The grouping loop of Timeline.tsx lines 71 to 91 over a sorted
record list, producing the dated buckets and the undated list. -/
def bucketCollect (now : Int) (sorted : List ImageResult) :
    List TimelinePeriod × List ImageResult :=
  sorted.foldl (bucketStep now) ([], [])

/-- Lines 94 to 101 of Timeline.tsx: when undated images exist, a
Modern / Unknown Date bucket carrying the current year as its range is
appended after the dated buckets. -/
def appendUndated (now : Int) (acc : List TimelinePeriod × List ImageResult) :
    List TimelinePeriod :=
  if acc.2.isEmpty then acc.1
  else acc.1 ++ [⟨"Modern / Unknown Date", now, now, acc.2⟩]

/-- The final sort of Timeline.tsx line 104: descending by startYear
(keep a before b when b.startYear - a.startYear is nonpositive). -/
def sortPeriods (ps : List TimelinePeriod) : List TimelinePeriod :=
  ps.mergeSort (fun a b => b.startYear - a.startYear ≤ 0)

/-- Bucket: the whole periods computation of Timeline.tsx lines 37 to
105 (year sort, grouping loop, undated bucket, period sort). -/
def Bucket (images : List ImageResult) (now : Int) : List TimelinePeriod :=
  sortPeriods (appendUndated now (bucketCollect now (sortImagesByYear images)))

/-- Total number of occurrences of a record across the images of all
buckets of a period list. -/
def totalCount (a : ImageResult) (ps : List TimelinePeriod) : Nat :=
  (ps.map (fun p => p.images.count a)).sum

/-- The invariant of every dated bucket built by the grouping loop: its
images have truthy years, it is nonempty, and its label and range come
from one entry of the period table. -/
def PeriodInv (now : Int) (p : TimelinePeriod) : Prop :=
  (∀ b ∈ p.images, yearFalsy b.year = false) ∧ p.images ≠ [] ∧
    ∃ d ∈ periodDefs now, p.label = d.label ∧ p.startYear = d.start ∧
      p.endYear = d.stop

/-- The outcome of the GET handler of route.ts: either the JSON payload
of images, count and represented sources, or the 400 rejection carrying
an error message. -/
inductive GETResult where
  | ok (images : List ImageResult) (count : Nat) (sources : List String)
  | badRequest (msg : String)
deriving DecidableEq, Repr

/-- Whether a handler outcome is the success payload. -/
def GETResult.isOk : GETResult → Bool
  | .ok _ _ _ => true
  | .badRequest _ => false

/-- The image list of a handler outcome (empty on rejection). -/
def GETResult.imagesOf : GETResult → List ImageResult
  | .ok imgs _ _ => imgs
  | .badRequest _ => []

/-- The represented-source list of a handler outcome. -/
def GETResult.sourcesOf : GETResult → List String
  | .ok _ _ srcs => srcs
  | .badRequest _ => []

/-- Splitting of the sources query parameter at commas
(sourcesParam.split of route.ts line 1098), char by char. -/
def splitCommaAux : List Char → List Char → List String
  | [], acc => [String.mk acc.reverse]
  | c :: cs, acc =>
    if c == ',' then String.mk acc.reverse :: splitCommaAux cs []
    else splitCommaAux cs (c :: acc)

/-- JS String.split(\x27,\x27): the comma-separated segments, in order. -/
def splitComma (s : String) : List String :=
  splitCommaAux s.data []

/-- The JS Set spread of route.ts line 1159: the distinct elements of a
list in first-occurrence order, with an explicit seen list. -/
def distinctFirstAux : List String → List String → List String
  | [], _ => []
  | s :: rest, seen =>
    if s ∈ seen then distinctFirstAux rest seen
    else s :: distinctFirstAux rest (s :: seen)

/-- The distinct elements of a list in first-occurrence order. -/
def distinctFirst (l : List String) : List String :=
  distinctFirstAux l []

/-- The order in which the handler tests and queues the scrapers
(route.ts lines 1102 to 1133). -/
def knownSourceOrder : List String :=
  ["google", "bing", "flickr", "unsplash", "zillow", "redfin", "loc",
   "wikimedia", "archive", "nypl", "maps"]

/-- The default sources parameter of route.ts line 1092. -/
def defaultSources : String :=
  "google,bing,flickr,unsplash,loc,wikimedia,archive"

/-- The GET handler of route.ts lines 1089 to 1160.  The location and
sources query parameters are nullable strings; fetch gives the records
each scraper resolves with (scrapers absorb their own failures and
never reject); rand is the comparator of the shuffle.  A falsy location
is rejected with the 400 error; otherwise the queued scrapers run, the
flattened results are deduplicated, shuffled, and wrapped in the JSON
payload together with their count and represented sources. -/
def GET (location : Option String) (sourcesParam : Option String)
    (fetch : String → List ImageResult)
    (rand : ImageResult → ImageResult → Bool) : GETResult :=
  if location.getD "" = "" then
    .badRequest "Location is required"
  else
    let sp := if sourcesParam.getD "" = "" then defaultSources
              else sourcesParam.getD ""
    let sources := splitComma sp
    let searchResults := (knownSourceOrder.filter
      (fun k => sources.contains k)).map fetch
    let allImages := searchResults.flatten
    let uniqueImages := Deduplicate allImages
    let shuffled := Mix rand uniqueImages
    .ok shuffled shuffled.length
      (distinctFirst (shuffled.map (fun r => r.source)))

/-- First record of concrete scenario 2: source loc, url with w=100. -/
def recLoc : ImageResult :=
  { id := "loc-1"
    url := "https://x.com/img.jpg?w=100"
    thumbnail := "https://x.com/img.jpg?w=100"
    title := "x.com image"
    source := "loc"
    sourceUrl := "https://x.com" }

/-- Second record of concrete scenario 2: source google, url with w=200. -/
def recGoogle : ImageResult :=
  { id := "google-1"
    url := "https://x.com/img.jpg?w=200"
    thumbnail := "https://x.com/img.jpg?w=200"
    title := "x.com image"
    source := "google"
    sourceUrl := "https://google.com" }

/-- A record dated 2021, for concrete scenario 3. -/
def rec2021 : ImageResult :=
  { id := "a-2021"
    url := "https://example.com/a.jpg"
    thumbnail := "https://example.com/a.jpg"
    title := "a"
    source := "google"
    sourceUrl := "https://example.com"
    year := some 2021 }

/-- A record dated 1995, for concrete scenario 3. -/
def rec1995 : ImageResult :=
  { id := "b-1995"
    url := "https://example.com/b.jpg"
    thumbnail := "https://example.com/b.jpg"
    title := "b"
    source := "loc"
    sourceUrl := "https://example.com"
    year := some 1995 }

/-- A record dated 1923, for concrete scenario 3. -/
def rec1923 : ImageResult :=
  { id := "c-1923"
    url := "https://example.com/c.jpg"
    thumbnail := "https://example.com/c.jpg"
    title := "c"
    source := "archive"
    sourceUrl := "https://example.com"
    year := some 1923 }

/-- An undated record, for concrete scenario 3. -/
def recNull : ImageResult :=
  { id := "d-null"
    url := "https://example.com/d.jpg"
    thumbnail := "https://example.com/d.jpg"
    title := "d"
    source := "bing"
    sourceUrl := "https://example.com" }

/-- The record list of concrete scenario 3 (years 2021, 1995, 1923 and
one undated record). -/
def demoImages : List ImageResult :=
  [rec2021, rec1995, rec1923, recNull]

/-- A record whose year lies outside every range of the period table. -/
def recFuture : ImageResult :=
  { id := "e-3000"
    url := "https://example.com/e.jpg"
    thumbnail := "https://example.com/e.jpg"
    title := "e"
    source := "google"
    sourceUrl := "https://example.com"
    year := some 3000 }

/-- A record whose year field is present but zero. -/
def recYearZero : ImageResult :=
  { id := "f-0"
    url := "https://example.com/f.jpg"
    thumbnail := "https://example.com/f.jpg"
    title := "f"
    source := "wikimedia"
    sourceUrl := "https://example.com"
    year := some 0 }

/-- A concrete adapter assignment: google resolves with two records,
every other scraper (bing among them, standing for the failing adapter)
resolves with the empty list. -/
def demoFetch : String → List ImageResult :=
  fun s => if s = "google" then [rec2021, recGoogle] else []

theorem dedupAux_congr_seen (l : List ImageResult) :
    ∀ s₁ s₂ : List String, (∀ x, x ∈ s₁ ↔ x ∈ s₂) →
      dedupAux l s₁ = dedupAux l s₂ := by
  induction l with
  | nil => intro s₁ s₂ _; rfl
  | cons img rest ih =>
    intro s₁ s₂ h
    by_cases hm : canonKey img.url ∈ s₁
    · rw [dedupAux, if_pos hm, dedupAux, if_pos ((h _).mp hm), ih _ _ h]
    · rw [dedupAux, if_neg hm, dedupAux, if_neg (fun hc => hm ((h _).mpr hc))]
      refine congrArg _ (ih _ _ ?_)
      intro x
      simp only [List.mem_cons]
      exact or_congr Iff.rfl (h x)

theorem dedupAux_cons_seen (l : List ImageResult) :
    ∀ (seen : List String) (k : String),
      dedupAux l (k :: seen) =
        dedupAux (l.filter (fun b => canonKey b.url != k)) seen := by
  induction l with
  | nil => intro seen k; rfl
  | cons img rest ih =>
    intro seen k
    by_cases hk : canonKey img.url = k
    · have hmem : canonKey img.url ∈ k :: seen := by simp [hk]
      rw [dedupAux, if_pos hmem]
      have hf : (img :: rest).filter (fun b => canonKey b.url != k)
          = rest.filter (fun b => canonKey b.url != k) := by
        simp [List.filter_cons, hk]
      rw [hf, ih seen k]
    · have hf : (img :: rest).filter (fun b => canonKey b.url != k)
          = img :: rest.filter (fun b => canonKey b.url != k) := by
        simp [List.filter_cons, hk]
      by_cases hs : canonKey img.url ∈ seen
      · have hmem : canonKey img.url ∈ k :: seen := by simp [hs]
        rw [dedupAux, if_pos hmem, hf, dedupAux, if_pos hs, ih seen k]
      · have hmem : canonKey img.url ∉ k :: seen := by
          simp [hk, hs]
        rw [dedupAux, if_neg hmem, hf, dedupAux, if_neg hs]
        refine congrArg _ ?_
        rw [dedupAux_congr_seen rest (canonKey img.url :: k :: seen)
              (k :: canonKey img.url :: seen) ?_, ih (canonKey img.url :: seen) k]
        intro x
        constructor <;> intro hx <;> simp only [List.mem_cons] at hx ⊢ <;> tauto

theorem dedupAux_key_not_seen (l : List ImageResult) :
    ∀ seen : List String, ∀ a ∈ dedupAux l seen, canonKey a.url ∉ seen := by
  induction l with
  | nil => intro seen a ha; simp [dedupAux] at ha
  | cons img rest ih =>
    intro seen a ha
    by_cases hm : canonKey img.url ∈ seen
    · rw [dedupAux, if_pos hm] at ha
      exact ih seen a ha
    · rw [dedupAux, if_neg hm] at ha
      rcases List.mem_cons.mp ha with h | h
      · rw [h]; exact hm
      · intro hc
        exact ih _ a h (List.mem_cons_of_mem _ hc)

theorem dedupAux_pairwise (l : List ImageResult) :
    ∀ seen : List String,
      List.Pairwise (fun a b => canonKey a.url ≠ canonKey b.url)
        (dedupAux l seen) := by
  induction l with
  | nil => intro seen; simp [dedupAux]
  | cons img rest ih =>
    intro seen
    by_cases hm : canonKey img.url ∈ seen
    · rw [dedupAux, if_pos hm]; exact ih seen
    · rw [dedupAux, if_neg hm]
      refine List.Pairwise.cons ?_ (ih _)
      intro b hb hc
      have := dedupAux_key_not_seen rest _ b hb
      exact this (by rw [← hc]; exact List.mem_cons_self _ _)

theorem dedupAux_of_pairwise (l : List ImageResult) :
    ∀ seen : List String,
      List.Pairwise (fun a b => canonKey a.url ≠ canonKey b.url) l →
      (∀ a ∈ l, canonKey a.url ∉ seen) →
      dedupAux l seen = l := by
  induction l with
  | nil => intro seen _ _; rfl
  | cons img rest ih =>
    intro seen hp hs
    have hm : canonKey img.url ∉ seen := hs img (List.mem_cons_self _ _)
    rw [dedupAux, if_neg hm]
    refine congrArg _ (ih _ hp.of_cons ?_)
    intro a ha
    intro hc
    rcases List.mem_cons.mp hc with h | h
    · exact (List.pairwise_cons.mp hp).1 a ha h.symm
    · exact hs a (List.mem_cons_of_mem _ ha) h

/-- C1: Deduplicate is a single pass in input order keyed on the url
truncated at the first question mark: the head of the input is always
retained and every later record with the same canonical key is dropped,
whatever its source; and on the two concrete records of scenario 2
(same canonical url, sources loc then google) the output is exactly the
first record. -/
theorem deduplicate_first_wins :
    (∀ (a : ImageResult) (l : List ImageResult),
        Deduplicate (a :: l) =
          a :: Deduplicate (l.filter (fun b => canonKey b.url != canonKey a.url)))
    ∧ Deduplicate [recLoc, recGoogle] = [recLoc] := by
  constructor
  · intro a l
    show dedupAux (a :: l) [] = _
    rw [dedupAux, if_neg (List.not_mem_nil _), dedupAux_cons_seen]
    rfl
  · decide

/-- C6: no two records in the output of Deduplicate share the same url
after truncation at the first question mark. -/
theorem deduplicate_no_residual_duplicates :
    ∀ l : List ImageResult,
      List.Pairwise (fun a b => canonKey a.url ≠ canonKey b.url)
        (Deduplicate l) := by
  intro l
  exact dedupAux_pairwise l []

/-- C9: Deduplicate is idempotent: deduplicating an already
deduplicated list returns it unchanged. -/
theorem deduplicate_idempotent :
    ∀ l : List ImageResult, Deduplicate (Deduplicate l) = Deduplicate l := by
  intro l
  exact dedupAux_of_pairwise _ [] (dedupAux_pairwise l []) (by simp)

theorem totalCount_cons (a : ImageResult) (p : TimelinePeriod)
    (ps : List TimelinePeriod) :
    totalCount a (p :: ps) = p.images.count a + totalCount a ps := by
  simp [totalCount]

theorem totalCount_append (a : ImageResult) (ps qs : List TimelinePeriod) :
    totalCount a (ps ++ qs) = totalCount a ps + totalCount a qs := by
  simp [totalCount]

theorem totalCount_perm (a : ImageResult) {ps qs : List TimelinePeriod}
    (h : ps.Perm qs) : totalCount a ps = totalCount a qs := by
  unfold totalCount
  exact List.Perm.sum_eq (List.Perm.map (fun p => p.images.count a) h)

theorem totalCount_pushImage (a img : ImageResult) (d : PeriodDef) :
    ∀ ps : List TimelinePeriod,
      totalCount a (pushImage d img ps) =
        totalCount a ps + (if img = a then 1 else 0) := by
  intro ps
  induction ps with
  | nil =>
    simp only [pushImage, totalCount, List.map_cons, List.map_nil,
      List.sum_cons, List.sum_nil, List.count_cons, List.count_nil]
    by_cases h : img = a <;> simp [h]
  | cons p ps ih =>
    by_cases h : (p.label == d.label) = true
    · simp only [pushImage, if_pos h, totalCount_cons, List.count_append,
        List.count_cons, List.count_nil]
      by_cases hia : img = a <;> simp [hia] <;> omega
    · simp only [pushImage, if_neg h, totalCount_cons, ih]
      omega

theorem bucketCollect_count (now : Int) (a : ImageResult)
    (h : yearFalsy a.year = true ∨ (findPeriod now a).isSome = true) :
    ∀ (l : List ImageResult) (res : List TimelinePeriod)
      (und : List ImageResult),
      totalCount a ((l.foldl (bucketStep now) (res, und)).1)
          + ((l.foldl (bucketStep now) (res, und)).2).count a
        = totalCount a res + und.count a + l.count a := by
  intro l
  induction l with
  | nil => intro res und; simp
  | cons img rest ih =>
    intro res und
    rw [List.foldl_cons]
    by_cases hf : yearFalsy img.year = true
    · rw [bucketStep, if_pos hf]
      rw [ih res (und ++ [img])]
      simp only [List.count_append, List.count_cons, List.count_nil]
      by_cases hia : img = a <;> simp [hia] <;> omega
    · rw [bucketStep, if_neg hf]
      cases hfind : findPeriod now img with
      | some d =>
        simp only
        rw [ih (pushImage d img res) und, totalCount_pushImage]
        simp only [List.count_cons]
        by_cases hia : img = a <;> simp [hia] <;> omega
      | none =>
        simp only
        rw [ih res und]
        have hia : img ≠ a := by
          intro hc
          rcases h with h | h
          · rw [← hc] at h; exact hf h
          · rw [← hc, hfind] at h; simp [Option.isSome] at h
        simp [List.count_cons, hia]

theorem periodDefs_label_ne_modern (now : Int) :
    ∀ d ∈ periodDefs now, d.label ≠ "Modern / Unknown Date" := by
  intro d hd
  simp only [periodDefs, List.mem_cons, List.not_mem_nil, or_false] at hd
  rcases hd with rfl | rfl | rfl | rfl | rfl | rfl | rfl | rfl | rfl | rfl |
    rfl | rfl | rfl | rfl | rfl <;> simp

theorem periodDefs_label_2020 (now : Int) :
    ∀ d ∈ periodDefs now, d.label = "2020s" → d.start = 2020 := by
  intro d hd
  simp only [periodDefs, List.mem_cons, List.not_mem_nil, or_false] at hd
  rcases hd with rfl | rfl | rfl | rfl | rfl | rfl | rfl | rfl | rfl | rfl |
    rfl | rfl | rfl | rfl | rfl <;> intro h <;>
    first
    | rfl
    | exact absurd h (by decide)

theorem pushImage_inv (now : Int) (d : PeriodDef) (img : ImageResult)
    (hd : d ∈ periodDefs now) (hi : yearFalsy img.year = false) :
    ∀ ps : List TimelinePeriod, (∀ p ∈ ps, PeriodInv now p) →
      ∀ p ∈ pushImage d img ps, PeriodInv now p := by
  intro ps
  induction ps with
  | nil =>
    intro _ p hp
    simp only [pushImage, List.mem_singleton] at hp
    subst hp
    refine ⟨?_, by simp, d, hd, rfl, rfl, rfl⟩
    intro b hb
    simp only [List.mem_singleton] at hb
    subst hb
    exact hi
  | cons q ps ih =>
    intro hps p hp
    by_cases hq : (q.label == d.label) = true
    · simp only [pushImage, if_pos hq] at hp
      rcases List.mem_cons.mp hp with rfl | hmem
      · obtain ⟨h1, _, dd, hdd, hl, hs, he⟩ := hps q (List.mem_cons_self _ _)
        refine ⟨?_, by simp, dd, hdd, hl, hs, he⟩
        intro b hb
        rcases List.mem_append.mp hb with hb | hb
        · exact h1 b hb
        · simp only [List.mem_singleton] at hb
          subst hb
          exact hi
      · exact hps p (List.mem_cons_of_mem _ hmem)
    · simp only [pushImage, if_neg hq] at hp
      rcases List.mem_cons.mp hp with rfl | hmem
      · exact hps p (List.mem_cons_self _ _)
      · exact ih (fun r hr => hps r (List.mem_cons_of_mem _ hr)) p hmem

theorem bucketCollect_inv (now : Int) :
    ∀ (l : List ImageResult) (res : List TimelinePeriod)
      (und : List ImageResult),
      (∀ p ∈ res, PeriodInv now p) →
      (∀ b ∈ und, yearFalsy b.year = true) →
      (∀ p ∈ (l.foldl (bucketStep now) (res, und)).1, PeriodInv now p) ∧
      (∀ b ∈ (l.foldl (bucketStep now) (res, und)).2,
        yearFalsy b.year = true) := by
  intro l
  induction l with
  | nil => intro res und h1 h2; exact ⟨h1, h2⟩
  | cons img rest ih =>
    intro res und h1 h2
    rw [List.foldl_cons]
    by_cases hf : yearFalsy img.year = true
    · rw [bucketStep, if_pos hf]
      refine ih res (und ++ [img]) h1 ?_
      intro b hb
      rcases List.mem_append.mp hb with hb | hb
      · exact h2 b hb
      · simp only [List.mem_singleton] at hb
        subst hb
        exact hf
    · rw [bucketStep, if_neg hf]
      cases hfind : findPeriod now img with
      | some d =>
        simp only
        refine ih (pushImage d img res) und ?_ h2
        exact pushImage_inv now d img
          (List.mem_of_find?_eq_some hfind)
          (Bool.eq_false_iff.mpr hf) res h1
      | none =>
        simp only
        exact ih res und h1 h2

theorem bucket_mem_inv (l : List ImageResult) (now : Int) :
    ∀ p ∈ Bucket l now, PeriodInv now p ∨
      (p.label = "Modern / Unknown Date" ∧ p.startYear = now ∧
       p.endYear = now ∧ p.images ≠ [] ∧
       ∀ b ∈ p.images, yearFalsy b.year = true) := by
  intro p hp
  rw [Bucket, sortPeriods] at hp
  rw [List.mem_mergeSort] at hp
  have hinv := bucketCollect_inv now (sortImagesByYear l) [] []
    (by simp) (by simp)
  rw [appendUndated] at hp
  by_cases hu : (bucketCollect now (sortImagesByYear l)).2.isEmpty = true
  · rw [if_pos hu] at hp
    exact Or.inl (hinv.1 p hp)
  · rw [if_neg hu] at hp
    rcases List.mem_append.mp hp with hmem | hmem
    · exact Or.inl (hinv.1 p hmem)
    · simp only [List.mem_singleton] at hmem
      subst hmem
      refine Or.inr ⟨rfl, rfl, rfl, ?_, hinv.2⟩
      simpa [List.isEmpty_iff] using hu

theorem totalCount_zero_countP (a : ImageResult) :
    ∀ ps : List TimelinePeriod, totalCount a ps = 0 →
      ps.countP (fun p => p.images.contains a) = 0 := by
  intro ps
  induction ps with
  | nil => intro _; rfl
  | cons p ps ih =>
    intro h
    rw [totalCount_cons] at h
    have h1 : p.images.count a = 0 := by omega
    have h2 : totalCount a ps = 0 := by omega
    rw [List.countP_cons, ih h2]
    have hm : a ∉ p.images := List.count_eq_zero.mp h1
    simp [hm]

theorem totalCount_one_countP (a : ImageResult) :
    ∀ ps : List TimelinePeriod, totalCount a ps = 1 →
      ps.countP (fun p => p.images.contains a) = 1 := by
  intro ps
  induction ps with
  | nil => intro h; simp [totalCount] at h
  | cons p ps ih =>
    intro h
    rw [totalCount_cons] at h
    by_cases hp : p.images.count a = 0
    · have h2 : totalCount a ps = 1 := by omega
      rw [List.countP_cons, ih h2]
      have hm : a ∉ p.images := List.count_eq_zero.mp hp
      simp [hm]
    · have h2 : totalCount a ps = 0 := by omega
      rw [List.countP_cons, totalCount_zero_countP a ps h2]
      have hm : a ∈ p.images := List.count_pos_iff.mp (by omega)
      simp [hm]

theorem totalCount_pos_mem (a : ImageResult) :
    ∀ ps : List TimelinePeriod, 0 < totalCount a ps →
      ∃ p ∈ ps, a ∈ p.images := by
  intro ps
  induction ps with
  | nil => intro h; simp [totalCount] at h
  | cons p ps ih =>
    intro h
    rw [totalCount_cons] at h
    by_cases hp : p.images.count a = 0
    · obtain ⟨q, hq, hmem⟩ := ih (by omega)
      exact ⟨q, List.mem_cons_of_mem _ hq, hmem⟩
    · exact ⟨p, List.mem_cons_self _ _, List.count_pos_iff.mp (by omega)⟩

theorem bucket_totalCount (l : List ImageResult) (now : Int) (a : ImageResult)
    (h : yearFalsy a.year = true ∨ (findPeriod now a).isSome = true) :
    totalCount a (Bucket l now) = l.count a := by
  have hperm : (Bucket l now).Perm
      (appendUndated now (bucketCollect now (sortImagesByYear l))) := by
    rw [Bucket, sortPeriods]
    exact List.mergeSort_perm _ _
  rw [totalCount_perm a hperm]
  have hcc := bucketCollect_count now a h (sortImagesByYear l) [] []
  have hsort : (sortImagesByYear l).count a = l.count a :=
    (List.mergeSort_perm l _).count_eq a
  rw [appendUndated]
  by_cases he : (bucketCollect now (sortImagesByYear l)).2.isEmpty = true
  · rw [if_pos he]
    have hnil : (bucketCollect now (sortImagesByYear l)).2 = [] :=
      List.isEmpty_iff.mp he
    rw [bucketCollect] at hnil
    rw [bucketCollect]
    rw [hnil] at hcc
    simp only [totalCount, List.count_nil, List.map_nil, List.sum_nil,
      List.map_cons, List.sum_cons, Nat.add_zero, Nat.zero_add] at hcc ⊢
    omega
  · rw [if_neg he, totalCount_append]
    rw [bucketCollect]
    simp only [totalCount, List.count_nil, List.map_nil, List.sum_nil,
      List.map_cons, List.sum_cons, Nat.add_zero, Nat.zero_add] at hcc ⊢
    omega

theorem bucket_sorted_desc (l : List ImageResult) (now : Int) :
    List.Pairwise (fun p q : TimelinePeriod => q.startYear ≤ p.startYear)
      (Bucket l now) := by
  rw [Bucket, sortPeriods]
  have hs := @List.sorted_mergeSort TimelinePeriod
    (fun p q : TimelinePeriod => decide (q.startYear - p.startYear ≤ 0))
    (fun a b c h1 h2 => by
      simp only [decide_eq_true_eq] at h1 h2 ⊢
      omega)
    (fun a b => by
      simp only [Bool.or_eq_true, decide_eq_true_eq]
      omega)
    (appendUndated now (bucketCollect now (sortImagesByYear l)))
  refine hs.imp ?_
  intro p q hpq
  simp only [decide_eq_true_eq] at hpq
  omega

theorem bucket_label_modern_start (l : List ImageResult) (now : Int) :
    ∀ p ∈ Bucket l now, p.label = "Modern / Unknown Date" →
      p.startYear = now := by
  intro p hp hl
  rcases bucket_mem_inv l now p hp with ⟨_, _, d, hd, hlab, _, _⟩ | ⟨_, hs, _⟩
  · exact absurd (hlab.symm.trans hl) (periodDefs_label_ne_modern now d hd)
  · exact hs

theorem bucket_label_2020_start (l : List ImageResult) (now : Int) :
    ∀ p ∈ Bucket l now, p.label = "2020s" → p.startYear = 2020 := by
  intro p hp hl
  rcases bucket_mem_inv l now p hp with
    ⟨_, _, d, hd, hlab, hstart, _⟩ | ⟨hm, _, _⟩
  · rw [hstart]
    exact periodDefs_label_2020 now d hd (hlab.symm.trans hl)
  · exact absurd (hm.symm.trans hl) (by decide)

theorem sortImages_demo : sortImagesByYear demoImages = demoImages := by
  simp [sortImagesByYear, demoImages, List.mergeSort, yearCmp, yearFalsy,
    rec2021, rec1995, rec1923, recNull]

theorem append_collect_demo :
    appendUndated 2025 (bucketCollect 2025 demoImages) =
    [⟨"2020s", 2020, 2025, [rec2021]⟩,
     ⟨"1990s", 1990, 1999, [rec1995]⟩,
     ⟨"1920s", 1920, 1929, [rec1923]⟩,
     ⟨"Modern / Unknown Date", 2025, 2025, [recNull]⟩] := by
  decide

theorem bucket_demo : Bucket demoImages 2025 =
    [⟨"Modern / Unknown Date", 2025, 2025, [recNull]⟩,
     ⟨"2020s", 2020, 2025, [rec2021]⟩,
     ⟨"1990s", 1990, 1999, [rec1995]⟩,
     ⟨"1920s", 1920, 1929, [rec1923]⟩] := by
  rw [Bucket, sortImages_demo, append_collect_demo]
  simp [sortPeriods, List.mergeSort]

/-- C2 (amended): every input record whose year is falsy or lies in one
of the ranges of the period table appears in exactly one output bucket
of Bucket, as often as it occurs in the input; records with a nonzero
year outside every range are dropped (see the counterexample). -/
theorem bucket_coverage (l : List ImageResult) (now : Int) (a : ImageResult)
    (h : yearFalsy a.year = true ∨ (findPeriod now a).isSome = true) :
    totalCount a (Bucket l now) = l.count a ∧
      (l.count a = 1 →
        (Bucket l now).countP (fun p => p.images.contains a) = 1) := by
  refine ⟨bucket_totalCount l now a h, ?_⟩
  intro hc1
  exact totalCount_one_countP a _ (by rw [bucket_totalCount l now a h, hc1])

/-- C2 counterexample: a record dated 3000 (outside every range of the
table) is in the nonempty input, yet appears in no output bucket. -/
theorem bucket_coverage_cex :
    recFuture ∈ [recFuture] ∧ ([recFuture] : List ImageResult) ≠ [] ∧
      totalCount recFuture (Bucket [recFuture] 2025) = 0 := by
  refine ⟨by decide, by decide, ?_⟩
  have h1 : sortImagesByYear [recFuture] = [recFuture] := by
    simp [sortImagesByYear, List.mergeSort]
  rw [Bucket, h1]
  have h2 : appendUndated 2025 (bucketCollect 2025 [recFuture]) = [] := by
    decide
  rw [h2]
  simp [sortPeriods, List.mergeSort, totalCount]

/-- C2 witness: a record dated 2021 occurring once in the input appears
in exactly one bucket of the output. -/
theorem bucket_coverage_witness :
    totalCount rec2021 (Bucket [rec2021] 2025) =
        ([rec2021] : List ImageResult).count rec2021 ∧
      (Bucket [rec2021] 2025).countP
        (fun p => p.images.contains rec2021) = 1 := by
  have h := bucket_coverage [rec2021] 2025 rec2021 (Or.inr (by decide))
  exact ⟨h.1, h.2 (by decide)⟩

/-- C3 (amended): within every output bucket of Bucket, a record sits
in the Modern / Unknown Date bucket exactly when its year field is
falsy (absent or zero); records with a nonzero year sit only in dated
periods.  The claim as stated fails for a present-but-zero year, see
the counterexample. -/
theorem bucket_dated_undated_partition :
    ∀ (l : List ImageResult) (now : Int), ∀ p ∈ Bucket l now,
      ∀ b ∈ p.images,
        (p.label = "Modern / Unknown Date" ↔ yearFalsy b.year = true) := by
  intro l now p hp b hb
  rcases bucket_mem_inv l now p hp with
    ⟨hfalse, _, d, hd, hlab, _, _⟩ | ⟨hm, _, _, _, hall⟩
  · constructor
    · intro hl
      exact absurd (hlab.symm.trans hl) (periodDefs_label_ne_modern now d hd)
    · intro hf
      exact absurd ((hfalse b hb).symm.trans hf) (by decide)
  · exact ⟨fun _ => hall b hb, fun _ => hm⟩

/-- C3 counterexample: a record whose year field is present (equal to
zero) lands in the Modern / Unknown Date bucket. -/
theorem bucket_partition_cex :
    recYearZero.year = some 0 ∧
      Bucket [recYearZero] 2025 =
        [⟨"Modern / Unknown Date", 2025, 2025, [recYearZero]⟩] := by
  refine ⟨rfl, ?_⟩
  have h1 : sortImagesByYear [recYearZero] = [recYearZero] := by
    simp [sortImagesByYear, List.mergeSort]
  rw [Bucket, h1]
  have h2 : appendUndated 2025 (bucketCollect 2025 [recYearZero]) =
      [⟨"Modern / Unknown Date", 2025, 2025, [recYearZero]⟩] := by
    decide
  rw [h2]
  simp [sortPeriods, List.mergeSort]

/-- C3 witness: in the output for the scenario records, the undated
record sits in the Modern / Unknown Date bucket. -/
theorem bucket_partition_witness :
    (TimelinePeriod.mk "Modern / Unknown Date" 2025 2025 [recNull]).label =
        "Modern / Unknown Date" ↔ yearFalsy recNull.year = true := by
  refine bucket_dated_undated_partition demoImages 2025 _ ?_ recNull ?_
  · rw [bucket_demo]
    exact List.mem_cons_self _ _
  · exact List.mem_cons_self _ _

/-- C8: the output periods of Bucket are sorted descending by
startYear; no output bucket is empty; the Modern / Unknown Date bucket
sorts with the current year as its key, hence stands before any 2020s
bucket whenever the current year exceeds 2020; and on the scenario
records (years 2021, 1995, 1923, one undated) the output is exactly
Modern / Unknown Date, 2020s, 1990s, 1920s in that order. -/
theorem bucket_period_ordering :
    (∀ (l : List ImageResult) (now : Int),
        List.Pairwise (fun p q : TimelinePeriod => q.startYear ≤ p.startYear)
          (Bucket l now))
    ∧ (∀ (l : List ImageResult) (now : Int), ∀ p ∈ Bucket l now,
        p.images ≠ [])
    ∧ (∀ (l : List ImageResult) (now : Int), ∀ p ∈ Bucket l now,
        p.label = "Modern / Unknown Date" → p.startYear = now)
    ∧ (∀ (l : List ImageResult) (now : Int), 2020 < now →
        ∀ (i j : ℕ) (hi : i < (Bucket l now).length)
          (hj : j < (Bucket l now).length),
          ((Bucket l now)[i]).label = "Modern / Unknown Date" →
          ((Bucket l now)[j]).label = "2020s" → i < j)
    ∧ (Bucket demoImages 2025).map (fun p => p.label) =
        ["Modern / Unknown Date", "2020s", "1990s", "1920s"] := by
  refine ⟨bucket_sorted_desc, ?_, bucket_label_modern_start, ?_, ?_⟩
  · intro l now p hp
    rcases bucket_mem_inv l now p hp with ⟨_, hne, _⟩ | ⟨_, _, _, hne, _⟩ <;>
      exact hne
  · intro l now hnow i j hi hj hmi hmj
    by_contra hij
    push_neg at hij
    rcases Nat.lt_or_ge j i with hlt | hge
    · have hpair := bucket_sorted_desc l now
      rw [List.pairwise_iff_getElem] at hpair
      have hle := hpair j i hj hi hlt
      have h1 : ((Bucket l now)[i]).startYear = now :=
        bucket_label_modern_start l now _ (List.getElem_mem hi) hmi
      have h2 : ((Bucket l now)[j]).startYear = 2020 :=
        bucket_label_2020_start l now _ (List.getElem_mem hj) hmj
      rw [h1, h2] at hle
      omega
    · have heq : i = j := by omega
      subst heq
      exact absurd (hmi.symm.trans hmj) (by decide)
  · rw [bucket_demo]
    rfl

/-- C8 witness: on the scenario records with current year 2025, the
current year exceeds 2020, the head bucket is the Modern / Unknown Date
one, the second is the 2020s one, and index 0 precedes index 1. -/
theorem bucket_period_ordering_witness :
    ((2020 : Int) < 2025) ∧ (0 : ℕ) < 1 := by
  have h4 := bucket_period_ordering.2.2.2.1 demoImages 2025 (by decide)
  have hlen : (Bucket demoImages 2025).length = 4 := by
    rw [bucket_demo]
    rfl
  have h0 : (0 : ℕ) < (Bucket demoImages 2025).length := by omega
  have h1 : (1 : ℕ) < (Bucket demoImages 2025).length := by omega
  refine ⟨by decide, h4 0 1 h0 h1 ?_ ?_⟩
  · simp [bucket_demo]
  · simp [bucket_demo]

/-- C10: a record whose year field is present but zero is treated as
undated by Bucket: it lands in a Modern / Unknown Date bucket and in no
other bucket (in particular not in the Earlier period, whose range
contains 0), because the dated test is the JS falsiness of year. -/
theorem bucket_year_zero_goes_undated (l : List ImageResult) (now : Int)
    (img : ImageResult) (h1 : img ∈ l) (h2 : img.year = some 0) :
    0 < (Bucket l now).countP
        (fun p => p.label == "Modern / Unknown Date" && p.images.contains img)
    ∧ (Bucket l now).countP
        (fun p => !(p.label == "Modern / Unknown Date")
          && p.images.contains img) = 0 := by
  have hf : yearFalsy img.year = true := by rw [h2]; rfl
  have htot : totalCount img (Bucket l now) = l.count img :=
    bucket_totalCount l now img (Or.inl hf)
  have hpos : 0 < l.count img := List.count_pos_iff.mpr h1
  obtain ⟨p, hp, hmem⟩ := totalCount_pos_mem img _ (by rw [htot]; exact hpos)
  have hlab : p.label = "Modern / Unknown Date" := by
    rcases bucket_mem_inv l now p hp with ⟨hfalse, _, _⟩ | ⟨hm, _⟩
    · exact absurd ((hfalse img hmem).symm.trans hf) (by decide)
    · exact hm
  constructor
  · rw [List.countP_pos]
    exact ⟨p, hp, by simp [hlab, hmem]⟩
  · rw [List.countP_eq_zero]
    intro q hq hc
    simp only [Bool.and_eq_true, Bool.not_eq_true', beq_eq_false_iff_ne,
      ne_eq] at hc
    obtain ⟨hne, hcont⟩ := hc
    have hqmem : img ∈ q.images := by
      simpa using hcont
    rcases bucket_mem_inv l now q hq with ⟨hfalse, _, _⟩ | ⟨hm, _⟩
    · exact absurd ((hfalse img hqmem).symm.trans hf) (by decide)
    · exact hne hm

/-- C10 witness: the concrete record with year zero lands in the
Modern / Unknown Date bucket and nowhere else. -/
theorem bucket_year_zero_witness :
    0 < (Bucket [recYearZero] 2025).countP
        (fun p => p.label == "Modern / Unknown Date"
          && p.images.contains recYearZero)
    ∧ (Bucket [recYearZero] 2025).countP
        (fun p => !(p.label == "Modern / Unknown Date")
          && p.images.contains recYearZero) = 0 :=
  bucket_year_zero_goes_undated [recYearZero] 2025 recYearZero
    (by decide) (by decide)

/-- C7: Mix returns a rearrangement of its input, whatever the random
comparator does: same multiset of records, nothing added, dropped or
modified. -/
theorem mix_permutation :
    ∀ (rand : ImageResult → ImageResult → Bool) (l : List ImageResult),
      (Mix rand l).Perm l ∧
        Multiset.ofList (Mix rand l) = Multiset.ofList l := by
  intro rand l
  have h : (Mix rand l).Perm l := List.mergeSort_perm l rand
  exact ⟨h, Multiset.coe_eq_coe.mpr h⟩

theorem distinctFirstAux_mem (x : String) :
    ∀ l seen : List String,
      (x ∈ distinctFirstAux l seen ↔ x ∈ l ∧ x ∉ seen) := by
  intro l
  induction l with
  | nil => intro seen; simp [distinctFirstAux]
  | cons s rest ih =>
    intro seen
    by_cases hs : s ∈ seen
    · rw [distinctFirstAux, if_pos hs, ih]
      simp only [List.mem_cons]
      constructor
      · rintro ⟨h1, h2⟩
        exact ⟨Or.inr h1, h2⟩
      · rintro ⟨h1, h2⟩
        rcases h1 with rfl | h1
        · exact absurd hs h2
        · exact ⟨h1, h2⟩
    · rw [distinctFirstAux, if_neg hs]
      simp only [List.mem_cons, ih]
      constructor
      · rintro (rfl | ⟨h1, h2⟩)
        · exact ⟨Or.inl rfl, hs⟩
        · exact ⟨Or.inr h1, fun hc => h2 (Or.inr hc)⟩
      · rintro ⟨h1, h2⟩
        rcases h1 with rfl | h1
        · exact Or.inl rfl
        · by_cases hxs : x = s
          · exact Or.inl hxs
          · exact Or.inr ⟨h1, fun hc => hc.elim hxs h2⟩

theorem distinctFirst_mem (x : String) (l : List String) :
    x ∈ distinctFirst l ↔ x ∈ l := by
  rw [distinctFirst, distinctFirstAux_mem]
  simp

theorem distinctFirstAux_all_seen :
    ∀ l seen : List String, (∀ y ∈ l, y ∈ seen) →
      distinctFirstAux l seen = [] := by
  intro l
  induction l with
  | nil => intro seen _; rfl
  | cons s rest ih =>
    intro seen h
    rw [distinctFirstAux, if_pos (h s (List.mem_cons_self _ _))]
    exact ih seen (fun y hy => h y (List.mem_cons_of_mem _ hy))

theorem distinctFirst_const (c : String) :
    ∀ l : List String, l ≠ [] → (∀ y ∈ l, y = c) →
      distinctFirst l = [c] := by
  intro l hne hall
  cases l with
  | nil => exact absurd rfl hne
  | cons s rest =>
    have hs : s = c := hall s (List.mem_cons_self _ _)
    subst hs
    rw [distinctFirst, distinctFirstAux, if_neg (List.not_mem_nil _)]
    refine congrArg _ (distinctFirstAux_all_seen rest [s] ?_)
    intro y hy
    rw [hall y (List.mem_cons_of_mem _ hy)]
    exact List.mem_cons_self _ _

theorem GET_ok_eq (q : String) (hq : q ≠ "") (sp : Option String)
    (fetch : String → List ImageResult)
    (rand : ImageResult → ImageResult → Bool) :
    GET (some q) sp fetch rand =
      GETResult.ok
        (Mix rand (Deduplicate ((knownSourceOrder.filter (fun k =>
          (splitComma (if sp.getD "" = "" then defaultSources
            else sp.getD "")).contains k)).map fetch).flatten))
        (Mix rand (Deduplicate ((knownSourceOrder.filter (fun k =>
          (splitComma (if sp.getD "" = "" then defaultSources
            else sp.getD "")).contains k)).map fetch).flatten)).length
        (distinctFirst ((Mix rand (Deduplicate
          ((knownSourceOrder.filter (fun k =>
            (splitComma (if sp.getD "" = "" then defaultSources
              else sp.getD "")).contains k)).map fetch).flatten)).map
          (fun r => r.source))) := by
  rw [GET, if_neg (by simpa using hq)]

/-- C4: for every nonempty query the handler succeeds whatever the
adapters return (a failing adapter having already been converted to an
empty list); the represented-source list is computed from, and has the
same members as, the sources of the records in the final list; and in
the two-adapter scenario (google succeeds with duplicate-free records,
bing fails and yields nothing) the output is exactly the successful
adapter's records up to the shuffle, with source list google alone. -/
theorem aggregate_isolated_failures (q : String) (hq : q ≠ "") :
    (∀ (sp : Option String) (fetch : String → List ImageResult)
        (rand : ImageResult → ImageResult → Bool),
        (GET (some q) sp fetch rand).isOk = true)
    ∧ (∀ sp fetch rand,
        (GET (some q) sp fetch rand).sourcesOf =
          distinctFirst (((GET (some q) sp fetch rand).imagesOf).map
            (fun r => r.source)))
    ∧ (∀ sp fetch rand (s : String),
        s ∈ (GET (some q) sp fetch rand).sourcesOf ↔
          ∃ r ∈ (GET (some q) sp fetch rand).imagesOf, r.source = s)
    ∧ (∀ (recs : List ImageResult) (fetch : String → List ImageResult)
        (rand : ImageResult → ImageResult → Bool),
        fetch "google" = recs → fetch "bing" = [] →
        List.Pairwise (fun a b => canonKey a.url ≠ canonKey b.url) recs →
        recs ≠ [] → (∀ r ∈ recs, r.source = "google") →
        (GET (some q) (some "google,bing") fetch rand).imagesOf.Perm recs ∧
          (GET (some q) (some "google,bing") fetch rand).sourcesOf =
            ["google"]) := by
  refine ⟨?_, ?_, ?_, ?_⟩
  · intro sp fetch rand
    rw [GET_ok_eq q hq]
    rfl
  · intro sp fetch rand
    rw [GET_ok_eq q hq]
    rfl
  · intro sp fetch rand s
    rw [GET_ok_eq q hq]
    simp only [GETResult.sourcesOf, GETResult.imagesOf]
    rw [distinctFirst_mem, List.mem_map]
  · intro recs fetch rand hg1 hg2 hpw hne hsrc
    rw [GET_ok_eq q hq]
    have heval : knownSourceOrder.filter (fun k =>
        (splitComma (if (some "google,bing" : Option String).getD "" = ""
          then defaultSources
          else (some "google,bing" : Option String).getD "")).contains k)
        = ["google", "bing"] := by decide
    rw [heval]
    simp only [List.map_cons, List.map_nil, List.flatten_cons,
      List.flatten_nil, List.append_nil, hg1, hg2]
    have hded : Deduplicate recs = recs := by
      rw [Deduplicate]
      exact dedupAux_of_pairwise recs [] hpw (by simp)
    rw [hded]
    have hperm : (Mix rand recs).Perm recs := List.mergeSort_perm recs rand
    constructor
    · exact hperm
    · simp only [GETResult.sourcesOf]
      refine distinctFirst_const "google" _ ?_ ?_
      · intro hc
        have h0 : Mix rand recs = [] := List.map_eq_nil_iff.mp hc
        have hlen := hperm.length_eq
        rw [h0] at hlen
        exact hne (List.eq_nil_of_length_eq_zero hlen.symm)
      · intro y hy
        rw [List.mem_map] at hy
        obtain ⟨r, hr, hry⟩ := hy
        have hrr : r ∈ recs := List.mem_mergeSort.mp hr
        rw [← hry]
        exact hsrc r hrr

/-- C4 witness: with query paris, google resolving two records and
bing resolving nothing, the handler succeeds, its image list is the two
google records up to order, and its source list is google alone. -/
theorem aggregate_isolated_failures_witness :
    (GET (some "paris") (some "google,bing") demoFetch
        (fun _ _ => true)).isOk = true
    ∧ (GET (some "paris") (some "google,bing") demoFetch
        (fun _ _ => true)).imagesOf.Perm [rec2021, recGoogle]
    ∧ (GET (some "paris") (some "google,bing") demoFetch
        (fun _ _ => true)).sourcesOf = ["google"] := by
  have h := aggregate_isolated_failures "paris" (by decide)
  have h4 := h.2.2.2 [rec2021, recGoogle] demoFetch (fun _ _ => true)
    (by decide) (by decide) (by decide) (by decide) (by decide)
  exact ⟨h.1 (some "google,bing") demoFetch (fun _ _ => true), h4.1, h4.2⟩

/-- C5: a missing or empty location is rejected with the input
validation error; the rejection does not depend on the adapters (none
is invoked in the model); and this rejection is the only failure the
handler itself produces. -/
theorem aggregate_invalid_input :
    (∀ (sp : Option String) (fetch : String → List ImageResult)
        (rand : ImageResult → ImageResult → Bool),
        GET none sp fetch rand = .badRequest "Location is required")
    ∧ (∀ sp fetch rand,
        GET (some "") sp fetch rand = .badRequest "Location is required")
    ∧ (∀ loc sp fetch fetchB rand randB,
        (GET loc sp fetch rand).isOk = false →
        GET loc sp fetch rand = GET loc sp fetchB randB)
    ∧ (∀ loc sp fetch rand msg,
        GET loc sp fetch rand = .badRequest msg →
        (loc = none ∨ loc = some "") ∧ msg = "Location is required") := by
  refine ⟨?_, ?_, ?_, ?_⟩
  · intro sp fetch rand
    rw [GET]
    rfl
  · intro sp fetch rand
    rw [GET]
    rfl
  · intro loc sp fetch fetchB rand randB hok
    by_cases hg : loc.getD "" = ""
    · rw [GET, if_pos hg, GET, if_pos hg]
    · rw [GET, if_neg hg] at hok
      exact absurd hok (by simp [GETResult.isOk])
  · intro loc sp fetch rand msg hbad
    by_cases hg : loc.getD "" = ""
    · rw [GET, if_pos hg] at hbad
      refine ⟨?_, (GETResult.badRequest.injEq _ _).mp hbad.symm⟩
      cases loc with
      | none => exact Or.inl rfl
      | some s =>
        simp only [Option.getD] at hg
        exact Or.inr (by rw [hg])
    · rw [GET, if_neg hg] at hbad
      exact absurd hbad (by simp)

/-- C5 witness: the rejection of a missing location at concrete
arguments, together with the only-failure conclusion at that point. -/
theorem aggregate_invalid_input_witness :
    GET none (some "google,bing") demoFetch (fun _ _ => true) =
        .badRequest "Location is required"
    ∧ ((none : Option String) = none ∨ (none : Option String) = some "") := by
  have h1 := aggregate_invalid_input.1 (some "google,bing") demoFetch
    (fun _ _ => true)
  have h4 := aggregate_invalid_input.2.2.2 none (some "google,bing")
    demoFetch (fun _ _ => true) "Location is required" h1
  exact ⟨h1, h4.1⟩
